import Mathlib

/-!
Verification of the raster delineation core of the `delineator` repository
(`py/merit_detailed.py` and `py/fast_dissolve.py`) against its
natural-language specification.

The Python code is shallowly embedded over `ℚ`:

* raster grids become lists of cells carrying their center coordinates,
  accumulation value and rasterized-mask bit;
* `numpy` float arithmetic becomes exact rational arithmetic (Python
  float literals are embedded as the exact rational value of the nearest
  IEEE-754 double where the difference is decision-relevant);
* the calls into the `pysheds` library (`snap_to_mask`, `catchment`,
  `polygonize`) are embedded through their documented semantics:
  `snap_to_mask` selects the qualifying cell nearest in Euclidean
  distance (we store the squared distance, a strictly monotone image of
  the Euclidean distance, to stay in `ℚ`); `catchment`/`polygonize` are
  an oracle parameter, since the claims under study only concern the
  control flow around them;
* an exception that escapes `get_subdivided_merit_polygon` (aborting the
  caller) is the explicit outcome `CallResult.fault`.
-/

namespace Delineator

/-- The half-pixel offset constant of `merit_detailed.py`, line 90:
`halfpix = 0.0008333333335070341758 / 2`, embedded as the exact rational
value of the decimal literal.  Note the literal is close to, but not
exactly, `1/1200` (the nominal 3-arcsecond pixel width). -/
def halfpix : ℚ := (0.0008333333335070341758 : ℚ) / 2

/-- Window-bound alignment of `merit_detailed.py`, lines 99–102: multiply
by 1200, floor (min corner) or ceil (max corner), divide by 1200, then
offset outward by `halfpix`.  Input order is (xmin, ymin, xmax, ymax). -/
def alignBounds (xmin ymin xmax ymax : ℚ) : ℚ × ℚ × ℚ × ℚ :=
  ((⌊xmin * 1200⌋ : ℚ) / 1200 - halfpix,
   (⌊ymin * 1200⌋ : ℚ) / 1200 - halfpix,
   (⌈xmax * 1200⌉ : ℚ) / 1200 + halfpix,
   (⌈ymax * 1200⌉ : ℚ) / 1200 + halfpix)

/-- The window-bound formula in the words of the specification's claim:
floor/ceil to whole multiples of 1/1200 and then offset by `h` where `h`
is EXACTLY half of one pixel width at resolution 1/1200 degree, i.e.
`h = 1/2400`.  Written from the spec, to be compared with `alignBounds`. -/
def specAlignBounds (xmin ymin xmax ymax : ℚ) : ℚ × ℚ × ℚ × ℚ :=
  ((⌊xmin * 1200⌋ : ℚ) / 1200 - 1 / 2400,
   (⌊ymin * 1200⌋ : ℚ) / 1200 - 1 / 2400,
   (⌈xmax * 1200⌉ : ℚ) / 1200 + 1 / 2400,
   (⌈ymax * 1200⌉ : ℚ) / 1200 + 1 / 2400)

/-- The IEEE-754 double nearest to the Python literal `10.0003`
(the value the running code actually receives). -/
def dbl_10_0003 : ℚ := 2814834209599573 / 2 ^ 48

/-- The IEEE-754 double nearest to the Python literal `20.0004`. -/
def dbl_20_0004 : ℚ := 1407403031050951 / 2 ^ 46

/-- The IEEE-754 double nearest to the Python literal `10.01`. -/
def dbl_10_01 : ℚ := 5635129033747333 / 2 ^ 49

/-- The IEEE-754 double nearest to the Python literal `20.01`
(slightly LARGER than 20.01: `20.01 * 2^48` rounds up). -/
def dbl_20_01 : ℚ := 5632314283980227 / 2 ^ 48

/-- One cell of the processing window: its center coordinates `(x, y)`
(longitude, latitude), its flow-accumulation value `acc`, and the bit
`mask` of the rasterized unit-catchment mask (`grid.mymask`). -/
structure Cell where
  x : ℚ
  y : ℚ
  acc : ℚ
  mask : Bool
deriving DecidableEq, Repr

/-- Center coordinate of a cell, as an `(x, y)` pair. -/
def cellPt (c : Cell) : ℚ × ℚ := (c.x, c.y)

/-- Squared Euclidean distance between two coordinates. -/
def sqDist (p q : ℚ × ℚ) : ℚ := (p.1 - q.1) ^ 2 + (p.2 - q.2) ^ 2

/-- The accumulation-masking loop of `merit_detailed.py`, lines 194–198:
every cell whose mask bit is 0 gets its accumulation set to 0. -/
def maskAcc (cells : List Cell) : List Cell :=
  cells.map (fun c => if c.mask then c else { c with acc := 0 })

/-- The snap threshold of `merit_detailed.py`, lines 223–228:
50 upstream pixels for a single-unit-catchment watershed, 2000 otherwise. -/
def numpixels (bSingleCatchment : Bool) : ℚ :=
  if bSingleCatchment then 50 else 2000

/-- The boolean stream raster `streams = grid.acc > numpixels`
(line 234), as the sublist of cells whose accumulation strictly exceeds
the threshold. -/
def streamCells (cells : List Cell) (threshold : ℚ) : List Cell :=
  cells.filter (fun c => threshold < c.acc)

/-- Nearest-cell scan: starting from a current best `b`, keep the cell
with the strictly smaller squared distance to `p` (ties keep the earlier
cell).  This is the argmin that `pysheds.snap_to_mask` computes with a
KD-tree over the `True` cells of the stream raster. -/
def nearest (p : ℚ × ℚ) : Cell → List Cell → Cell
  | b, [] => b
  | b, c :: cs =>
      if sqDist p (cellPt c) < sqDist p (cellPt b) then nearest p c cs
      else nearest p b cs

/-- Embedding of `grid.snap_to_mask(streams, xy)` (line 236): among the
cells whose accumulation exceeds the threshold, return the coordinate of
the one nearest to `p` together with the achieved squared distance.
When no cell qualifies the library call has no answer and raises; this is
the `none` case. -/
def snapToMask (cells : List Cell) (threshold : ℚ) (p : ℚ × ℚ) :
    Option ((ℚ × ℚ) × ℚ) :=
  match streamCells cells threshold with
  | [] => none
  | c :: cs =>
      let b := nearest p c cs
      some (cellPt b, sqDist p (cellPt b))

/-- The possible outcomes of one call of `get_subdivided_merit_polygon`.
`success poly a b` is the normal return `(poly, a, b)`;
`noCatchment a b` is the `except:`-branch return `(None, a, b)`
(line 256); `fault` is an exception escaping the function and aborting
the caller. -/
inductive CallResult (P : Type) where
  | success (poly : P) (second third : ℚ)
  | noCatchment (second third : ℚ)
  | fault
deriving DecidableEq

/-- Embedding of the tail of `get_subdivided_merit_polygon`
(lines 194–317), from accumulation masking onward, for a window already
loaded as `cells`.  `catchment` is the oracle for
`grid.catchment` + `grid.polygonize`: `Except.error` when
`grid.catchment` raises (caught at line 254), `Except.ok shapes` for the
polygonized shapes otherwise.  `unionFn` is `shapely.ops.unary_union`.
Faithful to the source: the `except:` branch returns
`(None, lng_snap, lat_snap)` with the raw snapped values; the success
path first nudges `lng_snap += halfpix`, `lat_snap -= halfpix`
(lines 297–298) and returns `(poly, lat_snap, lng_snap)`; with zero
polygonized shapes the final `shapely_polygons[0]` raises `IndexError`
(an uncaught fault). -/
def runDelineation {P : Type} (cells : List Cell) (bSingleCatchment : Bool)
    (lat lng : ℚ) (catchment : ℚ → ℚ → Except Unit (List P))
    (unionFn : List P → P) : CallResult P :=
  let masked := maskAcc cells
  match snapToMask masked (numpixels bSingleCatchment) (lng, lat) with
  | none => .fault
  | some ((lngSnap, latSnap), _dist) =>
      match catchment lngSnap latSnap with
      | .error _ => .noCatchment lngSnap latSnap
      | .ok shapes =>
          let lngSnap2 := lngSnap + halfpix
          let latSnap2 := latSnap - halfpix
          if 1 < shapes.length then
            .success (unionFn shapes) latSnap2 lngSnap2
          else
            match shapes with
            | [] => .fault
            | s :: _ => .success s latSnap2 lngSnap2

/-- A linear ring: a cyclic list of `(x, y)` vertices (the closing edge
from the last vertex back to the first is implicit). -/
abbrev LinRing := List (ℚ × ℚ)

/-- A (single-part, possibly holed) polygon as in `shapely`: one exterior
ring and a list of interior rings. -/
structure SPolygon where
  exterior : LinRing
  interiors : List LinRing
deriving DecidableEq, Repr

/-- The empty polygon, used only as an out-of-range list default. -/
def emptySPoly : SPolygon := ⟨[], []⟩

/-- Twice the signed area of a ring (shoelace sum over the cyclic edges). -/
def ringSignedArea2 (r : LinRing) : ℚ :=
  ((r.zip (r.rotate 1)).map (fun pq => pq.1.1 * pq.2.2 - pq.2.1 * pq.1.2)).sum

/-- Area of a ring: absolute shoelace value halved.  This is
`shapely.Polygon(ring).area`, as used on interior rings in
`close_holes` (`fast_dissolve.py`, lines 65–66). -/
def ringArea (r : LinRing) : ℚ := |ringSignedArea2 r| / 2

/-- `shapely` polygon area: exterior area minus the areas of the holes. -/
def polyArea (p : SPolygon) : ℚ :=
  ringArea p.exterior - (p.interiors.map ringArea).sum

/-- `numpy.argmax` over a list of rationals: the index of the FIRST
element attaining the maximum value (0 on the empty list, on which the
source never calls it). -/
def npArgmax : List ℚ → ℕ
  | [] => 0
  | [_] => 0
  | a :: b :: rest =>
      if a < (b :: rest).getD (npArgmax (b :: rest)) 0 then
        npArgmax (b :: rest) + 1
      else 0

/-- `Polygons_multi[np.argmax([polygon.area for polygon in
Polygons_multi])]`: the multi-part selection of `merit_detailed.py`,
lines 77–78, and `fast_dissolve.py`, lines 51–52. -/
def selectLargest (ps : List SPolygon) : SPolygon :=
  ps.getD (npArgmax (ps.map polyArea)) emptySPoly

/-- A `shapely` geometry that is either a single polygon or a
multi-polygon (`geom_type` dispatch). -/
inductive Geom where
  | poly (p : SPolygon)
  | multi (ps : List SPolygon)

/-- The `geom_type` dispatch shared by `get_subdivided_merit_polygon`
(lines 74–78) and `close_holes` (lines 48–52): a plain polygon passes
through, a multi-polygon is replaced by its largest-area part. -/
def resolveCatchmentPoly : Geom → SPolygon
  | .poly p => p
  | .multi ps => selectLargest ps

/-- The rasterizer input handling of `merit_detailed.py`, lines 74–140:
reduce a multi-part polygon to its largest part, drop its interior rings
(`Polygon(poly.exterior.coords)`, line 134), and rasterize the result.
`R` abstracts `grid.rasterize`: the cell-membership test of a polygon,
over an arbitrary cell-index type. -/
def buildMask {ι : Type} (R : SPolygon → ι → Bool) (g : Geom) : ι → Bool :=
  R ⟨(resolveCatchmentPoly g).exterior, []⟩

/-- Embedding of `close_holes` (`fast_dissolve.py`, lines 33–69):
reduce a multi-polygon to its largest part; with `area_max = 0` drop all
interior rings (when there are any); otherwise keep exactly the interior
rings whose area strictly exceeds `area_max`. -/
def close_holes (g : Geom) (area_max : ℚ) : SPolygon :=
  let poly := resolveCatchmentPoly g
  if area_max = 0 then
    if poly.interiors ≠ [] then ⟨poly.exterior, []⟩ else poly
  else
    ⟨poly.exterior, poly.interiors.filter (fun r => area_max < ringArea r)⟩

/-- A concrete stream cell: center (100, 30), accumulation 100, inside
the rasterized mask. -/
def exCell : Cell := ⟨100, 30, 100, true⟩

/-- A concrete stream cell farther from the pour point, with a large
accumulation value. -/
def exFarCell : Cell := ⟨110, 30, 3000, true⟩

/-- A concrete masked-in cell whose accumulation is below every
threshold. -/
def exDryCell : Cell := ⟨100, 30, 0, true⟩

/-- A concrete cell outside the rasterized mask with a nonzero
accumulation value. -/
def exOffCell : Cell := ⟨101, 30, 77, false⟩

/-- A concrete square interior ring of area 4. -/
def exHole : LinRing := [(2, 2), (4, 2), (4, 4), (2, 4)]

/-- A concrete unit-square interior ring of area 1. -/
def exUnitHole : LinRing := [(5, 5), (6, 5), (6, 6), (5, 6)]

/-- A 10×10 square polygon with the single interior ring `exHole`. -/
def exPolyHole : SPolygon := ⟨[(0, 0), (10, 0), (10, 10), (0, 10)], [exHole]⟩

/-- A 10×10 square polygon with interior rings `exHole` (area 4) and
`exUnitHole` (area 1). -/
def exPolyTwoHoles : SPolygon :=
  ⟨[(0, 0), (10, 0), (10, 10), (0, 10)], [exHole, exUnitHole]⟩

/-- A concrete polygon part of area 1. -/
def exSmallPart : SPolygon := ⟨[(7, 0), (8, 0), (8, 1), (7, 1)], []⟩

/-- A concrete polygon part of area 10 (10:1 ratio with `exSmallPart`). -/
def exBigPart : SPolygon := ⟨[(0, 0), (5, 0), (5, 2), (0, 2)], []⟩

/-! Helper lemmas. -/

theorem nearest_mem (p : ℚ × ℚ) : ∀ (b : Cell) (cs : List Cell),
    nearest p b cs = b ∨ nearest p b cs ∈ cs
  | b, [] => Or.inl rfl
  | b, c :: cs => by
      rw [nearest]
      split
      · rcases nearest_mem p c cs with h | h
        · exact Or.inr (by rw [h]; exact List.mem_cons_self c cs)
        · exact Or.inr (List.mem_cons_of_mem _ h)
      · rcases nearest_mem p b cs with h | h
        · exact Or.inl h
        · exact Or.inr (List.mem_cons_of_mem _ h)

theorem nearest_mem_cons (p : ℚ × ℚ) (b : Cell) (cs : List Cell) :
    nearest p b cs ∈ b :: cs := by
  rcases nearest_mem p b cs with h | h
  · rw [h]; exact List.mem_cons_self b cs
  · exact List.mem_cons_of_mem _ h

theorem nearest_le (p : ℚ × ℚ) : ∀ (b : Cell) (cs : List Cell),
    sqDist p (cellPt (nearest p b cs)) ≤ sqDist p (cellPt b) ∧
    ∀ c ∈ cs, sqDist p (cellPt (nearest p b cs)) ≤ sqDist p (cellPt c)
  | b, [] => ⟨le_refl _, by intro c hc; cases hc⟩
  | b, c :: cs => by
      rw [nearest]
      split
      · next hlt =>
        obtain ⟨ih1, ih2⟩ := nearest_le p c cs
        refine ⟨ih1.trans hlt.le, ?_⟩
        intro x hx
        rcases List.mem_cons.mp hx with rfl | hx
        · exact ih1
        · exact ih2 x hx
      · next hge =>
        obtain ⟨ih1, ih2⟩ := nearest_le p b cs
        refine ⟨ih1, ?_⟩
        intro x hx
        rcases List.mem_cons.mp hx with rfl | hx
        · exact ih1.trans (not_lt.mp hge)
        · exact ih2 x hx

theorem nearest_le_all (p : ℚ × ℚ) (b : Cell) (cs : List Cell) :
    ∀ c ∈ b :: cs, sqDist p (cellPt (nearest p b cs)) ≤ sqDist p (cellPt c) := by
  intro c hc
  rcases List.mem_cons.mp hc with rfl | hc
  · exact (nearest_le p c cs).1
  · exact (nearest_le p b cs).2 c hc

theorem mem_streamCells {cells : List Cell} {threshold : ℚ} {c : Cell} :
    c ∈ streamCells cells threshold ↔ c ∈ cells ∧ threshold < c.acc := by
  simp [streamCells, List.mem_filter]

theorem npArgmax_lt_length : ∀ (l : List ℚ), l ≠ [] → npArgmax l < l.length
  | [], h => absurd rfl h
  | [_], _ => Nat.zero_lt_one
  | a :: b :: rest, _ => by
      rw [npArgmax]
      split
      · have := npArgmax_lt_length (b :: rest) (by simp)
        simpa [List.length_cons] using Nat.succ_lt_succ this
      · simp

theorem npArgmax_is_max : ∀ (l : List ℚ), ∀ x ∈ l, x ≤ l.getD (npArgmax l) 0
  | [], x, hx => absurd hx (List.not_mem_nil x)
  | [a], x, hx => by
      rcases List.mem_singleton.mp hx with rfl
      simp [npArgmax]
  | a :: b :: rest, x, hx => by
      rw [npArgmax]
      split
      · next hlt =>
        rw [List.getD_cons_succ]
        rcases List.mem_cons.mp hx with rfl | hx
        · exact hlt.le
        · exact npArgmax_is_max (b :: rest) x hx
      · next hge =>
        rw [List.getD_cons_zero]
        rcases List.mem_cons.mp hx with rfl | hx
        · exact le_refl x
        · exact (npArgmax_is_max (b :: rest) x hx).trans (not_lt.mp hge)

theorem npArgmax_first : ∀ (l : List ℚ), ∀ j < npArgmax l,
    l.getD j 0 < l.getD (npArgmax l) 0
  | [], j, hj => by simp [npArgmax] at hj
  | [_], j, hj => by simp [npArgmax] at hj
  | a :: b :: rest, j, hj => by
      rw [npArgmax] at hj ⊢
      split at hj
      · next hlt =>
        rw [if_pos hlt, List.getD_cons_succ]
        match j with
        | 0 => simpa using hlt
        | k + 1 =>
            rw [List.getD_cons_succ]
            exact npArgmax_first (b :: rest) k (Nat.lt_of_succ_lt_succ hj)
      · exact absurd hj (Nat.not_lt_zero j)

theorem getD_map_polyArea (ps : List SPolygon) (j : ℕ) (hj : j < ps.length) :
    (ps.map polyArea).getD j 0 = polyArea (ps.getD j emptySPoly) := by
  rw [List.getD_eq_getElem?_getD, List.getD_eq_getElem?_getD, List.getElem?_map,
    List.getElem?_eq_getElem hj]
  rfl

theorem floor_xmin_scenario : ⌊dbl_10_0003 * 1200⌋ = 12000 := by
  rw [Int.floor_eq_iff]
  norm_num [dbl_10_0003]

theorem floor_ymin_scenario : ⌊dbl_20_0004 * 1200⌋ = 24000 := by
  rw [Int.floor_eq_iff]
  norm_num [dbl_20_0004]

theorem ceil_xmax_scenario : ⌈dbl_10_01 * 1200⌉ = 12012 := by
  rw [Int.ceil_eq_iff]
  norm_num [dbl_10_01]

theorem ceil_ymax_scenario : ⌈dbl_20_01 * 1200⌉ = 24013 := by
  rw [Int.ceil_eq_iff]
  norm_num [dbl_20_01]

/-!
Claim theorems.
-/

/-- Claim C1 (code_bug evidence).  When snapping succeeds (snapped point
`(lng, lat) = (100, 30)`) and `grid.catchment` raises, the function
returns the no-catchment outcome `(None, lng_snap, lat_snap)` — with the
raw snapped LONGITUDE in the second slot — whereas a success at the same
snap returns `(poly, lat_snap − halfpix, lng_snap + halfpix)`: latitude
second, longitude third, both nudged.  The failure return therefore does
not carry the snapped coordinates in the success outcome's positions or
with the success outcome's values, contradicting the claim (and the
function's own docstring, which declares the return order
`poly, lat_snap, lng_snap`). -/
theorem C1_except_return_swapped :
    runDelineation [exCell] true 30 100 (fun _ _ => Except.error ())
      (fun _ : List Unit => ()) = .noCatchment 100 30 ∧
    runDelineation [exCell] true 30 100 (fun _ _ => Except.ok [()])
      (fun _ : List Unit => ()) = .success () (30 - halfpix) (100 + halfpix) ∧
    (CallResult.noCatchment (P := Unit) 100 30 ≠
      .noCatchment (30 - halfpix) (100 + halfpix)) := by
  refine ⟨?_, ?_, ?_⟩
  · norm_num [runDelineation, snapToMask, streamCells, nearest, maskAcc, cellPt,
      sqDist, numpixels, exCell]
  · norm_num [runDelineation, snapToMask, streamCells, nearest, maskAcc, cellPt,
      sqDist, numpixels, exCell]
  · intro h
    rw [CallResult.noCatchment.injEq] at h
    have := h.1
    norm_num [halfpix] at this

/-- Claim C2 (code_bug evidence).  When every cell of the masked
accumulation window has accumulation at most the threshold, the stream
mask is empty and `grid.snap_to_mask` has no cell to return: the library
raises an untyped error that nothing catches (the `try` block only
starts at the later `grid.catchment` call), so the call aborts
(`CallResult.fault`).  No typed, recoverable `NoStreamCellsFound` error
exists anywhere in the code. -/
theorem C2_no_stream_cells_uncaught_fault {P : Type} (cells : List Cell)
    (b : Bool) (lat lng : ℚ) (catchment : ℚ → ℚ → Except Unit (List P))
    (u : List P → P) (h : ∀ c ∈ maskAcc cells, c.acc ≤ numpixels b) :
    runDelineation cells b lat lng catchment u = .fault := by
  have hnil : streamCells (maskAcc cells) (numpixels b) = [] := by
    rw [streamCells, List.filter_eq_nil_iff]
    intro c hc
    simpa using not_lt.mpr (h c hc)
  simp [runDelineation, snapToMask, hnil]

/-- Witness for C2: a window holding one masked-in cell of accumulation 0
makes the call abort. -/
theorem C2_no_stream_cells_uncaught_fault_witness :
    runDelineation [exDryCell] true 30 100 (fun _ _ => Except.ok [()])
      (fun _ : List Unit => ()) = .fault :=
  C2_no_stream_cells_uncaught_fault [exDryCell] true 30 100 _ _ (by
    intro c hc
    simp [maskAcc, exDryCell] at hc
    rw [hc]
    norm_num [numpixels])

/-- Claim C3 counterexample.  At the claimed scenario bounding box
`(10.0003, 20.0004, 10.01, 20.01)` — whose values the running code holds
as IEEE-754 doubles — the computed xmin bound differs from the claim's
formula value `floor(10.0003·1200)/1200 − (1/1200)/2` (because the code's
half-pixel constant is `0.0008333333335070341758 / 2 ≠ 1/2400`), and the
computed ymax bound differs by about a whole pixel (because the double
for `20.01` is slightly above `20.01`, so the code's ceil yields 24013,
not 24012). -/
theorem C3_counterexample :
    (alignBounds dbl_10_0003 dbl_20_0004 dbl_10_01 dbl_20_01).1 ≠
      (specAlignBounds (100003/10000) (200004/10000) (1001/100) (2001/100)).1 ∧
    (alignBounds dbl_10_0003 dbl_20_0004 dbl_10_01 dbl_20_01).2.2.2 ≠
      (specAlignBounds (100003/10000) (200004/10000) (1001/100) (2001/100)).2.2.2 := by
  have hf : ⌊(100003/10000 : ℚ) * 1200⌋ = 12000 := by
    rw [Int.floor_eq_iff]; norm_num
  have hc : ⌈(2001/100 : ℚ) * 1200⌉ = 24012 := by
    rw [Int.ceil_eq_iff]; norm_num
  constructor
  · simp only [alignBounds, specAlignBounds, floor_xmin_scenario, hf]
    norm_num [halfpix]
  · simp only [alignBounds, specAlignBounds, ceil_ymax_scenario, hc]
    norm_num [halfpix]

/-- Claim C3 (amended).  The aligned window bounds equal
`(⌊xmin·1200⌋/1200 − h, ⌊ymin·1200⌋/1200 − h, ⌈xmax·1200⌉/1200 + h,
⌈ymax·1200⌉/1200 + h)` where `h = halfpix` is half the code's pixel
constant `0.0008333333335070341758`, close to but NOT equal to `1/2400`;
at the scenario bounding box (taken as the doubles the code receives)
this yields the literal bounds below, with the ymax pixel index 24013. -/
theorem C3_aligned_bounds_scenario :
    alignBounds dbl_10_0003 dbl_20_0004 dbl_10_01 dbl_20_01 =
      (10 - halfpix, 20 - halfpix, 1001/100 + halfpix, 24013/1200 + halfpix) ∧
    halfpix ≠ 1/2400 := by
  constructor
  · rw [alignBounds, floor_xmin_scenario, floor_ymin_scenario, ceil_xmax_scenario,
      ceil_ymax_scenario]
    norm_num
  · norm_num [halfpix]

/-- Claim C4.  The stream predicate of the snapping step classifies a
cell as a stream cell iff its accumulation STRICTLY exceeds the
threshold `numpixels bSingleCatchment`, which is 50 for a
single-unit-catchment watershed and 2000 otherwise; a cell whose
accumulation equals the threshold is not a stream cell. -/
theorem C4_stream_predicate (cells : List Cell) (b : Bool) (c : Cell) :
    (c ∈ streamCells cells (numpixels b) ↔ c ∈ cells ∧ numpixels b < c.acc) ∧
    numpixels true = 50 ∧ numpixels false = 2000 ∧
    (c.acc = numpixels b → c ∉ streamCells cells (numpixels b)) := by
  refine ⟨mem_streamCells, rfl, rfl, ?_⟩
  intro heq hc
  have := (mem_streamCells.mp hc).2
  rw [heq] at this
  exact lt_irrefl _ this

/-- Witness for C4: a cell with accumulation 100 qualifies under the
single-catchment threshold 50. -/
theorem C4_stream_predicate_witness :
    exCell ∈ streamCells [exCell] (numpixels true) :=
  (C4_stream_predicate [exCell] true exCell).1.mpr
    ⟨List.mem_singleton.mpr rfl, by norm_num [exCell, numpixels]⟩

/-- Claim C5.  After the accumulation-masking loop, every cell whose
rasterized-mask bit is `false` has accumulation 0; hence for any stream
threshold `T ≥ 50` no masked-out cell satisfies the stream predicate,
and the snapped cell (when snapping succeeds) always lies inside the
rasterized mask. -/
theorem C5_mask_zeroing (cells : List Cell) (T : ℚ) (p : ℚ × ℚ) (hT : 50 ≤ T) :
    (∀ c ∈ maskAcc cells, c.mask = false → c.acc = 0) ∧
    (∀ c ∈ maskAcc cells, c.mask = false → ¬ T < c.acc) ∧
    (∀ pt d, snapToMask (maskAcc cells) T p = some (pt, d) →
      ∃ c, c ∈ maskAcc cells ∧ c.mask = true ∧ pt = cellPt c) := by
  have h1 : ∀ c ∈ maskAcc cells, c.mask = false → c.acc = 0 := by
    intro c hc hm
    rw [maskAcc, List.mem_map] at hc
    obtain ⟨c0, _, rfl⟩ := hc
    by_cases hmask : c0.mask
    · rw [if_pos hmask] at hm
      rw [hm] at hmask
      cases hmask
    · rw [if_neg hmask]
  have h2 : ∀ c ∈ maskAcc cells, c.mask = false → ¬ T < c.acc := by
    intro c hc hm
    rw [h1 c hc hm]
    exact not_lt.mpr (le_trans (by norm_num) hT)
  refine ⟨h1, h2, ?_⟩
  intro pt d hsnap
  rw [snapToMask] at hsnap
  split at hsnap
  · cases hsnap
  · next c cs heq =>
    simp only [Option.some.injEq, Prod.mk.injEq] at hsnap
    obtain ⟨hpt, hd⟩ := hsnap
    have hmem : nearest p c cs ∈ c :: cs := nearest_mem_cons p c cs
    rw [← heq] at hmem
    obtain ⟨hin, hgt⟩ := mem_streamCells.mp hmem
    refine ⟨nearest p c cs, hin, ?_, hpt.symm⟩
    cases hb : (nearest p c cs).mask
    · exact absurd hgt (h2 _ hin hb)
    · rfl

/-- Witness for C5: the masked-out cell `exOffCell` (accumulation 77)
has accumulation 0 after masking. -/
theorem C5_mask_zeroing_witness :
    (50:ℚ) ≤ 50 ∧ (⟨101, 30, 0, false⟩ : Cell).acc = 0 :=
  ⟨le_refl 50,
    (C5_mask_zeroing [exOffCell] 50 (0, 0) (le_refl 50)).1 ⟨101, 30, 0, false⟩
      (by simp [maskAcc, exOffCell]) rfl⟩

/-- Claim C6.  For a non-empty multi-part polygon, the shared
`geom_type` preprocessing selects the part at index
`npArgmax (areas)`: that index is in range, the selected part's area is
maximal, every part before it has strictly smaller area (the FIRST
maximal part wins ties), `close_holes` operates on the same selected
part, and the rasterized mask is built from the selected part's exterior
only — so no cell outside the selected part's rasterization can be set. -/
theorem C6_largest_part_selection (ps : List SPolygon) (hne : ps ≠ []) :
    npArgmax (ps.map polyArea) < ps.length ∧
    resolveCatchmentPoly (.multi ps) =
      ps.getD (npArgmax (ps.map polyArea)) emptySPoly ∧
    (∀ x ∈ ps, polyArea x ≤ polyArea (ps.getD (npArgmax (ps.map polyArea)) emptySPoly)) ∧
    (∀ j < npArgmax (ps.map polyArea),
      polyArea (ps.getD j emptySPoly) <
        polyArea (ps.getD (npArgmax (ps.map polyArea)) emptySPoly)) ∧
    (∀ t : ℚ, (close_holes (.multi ps) t).exterior =
      (ps.getD (npArgmax (ps.map polyArea)) emptySPoly).exterior) ∧
    (∀ (R : SPolygon → ℕ × ℕ → Bool) (idx : ℕ × ℕ),
      buildMask R (.multi ps) idx =
        R ⟨(ps.getD (npArgmax (ps.map polyArea)) emptySPoly).exterior, []⟩ idx) := by
  have hlen : npArgmax (ps.map polyArea) < ps.length := by
    have := npArgmax_lt_length (ps.map polyArea) (by simpa using hne)
    simpa using this
  refine ⟨hlen, rfl, ?_, ?_, ?_, ?_⟩
  · intro x hx
    have := npArgmax_is_max (ps.map polyArea) (polyArea x) (List.mem_map_of_mem _ hx)
    rwa [getD_map_polyArea ps _ hlen] at this
  · intro j hj
    have h2 := npArgmax_first (ps.map polyArea) j hj
    rw [getD_map_polyArea ps j (lt_trans hj hlen), getD_map_polyArea ps _ hlen] at h2
    exact h2
  · intro t
    simp only [close_holes, resolveCatchmentPoly, selectLargest]
    split
    · split <;> rfl
    · rfl
  · intro R idx
    rfl

/-- Witness for C6: with parts of areas 1 and 10 the preprocessing
selects the part at the argmax index. -/
theorem C6_largest_part_selection_witness :
    resolveCatchmentPoly (.multi [exSmallPart, exBigPart]) =
      [exSmallPart, exBigPart].getD
        (npArgmax ([exSmallPart, exBigPart].map polyArea)) emptySPoly :=
  (C6_largest_part_selection [exSmallPart, exBigPart] (by simp)).2.1

/-- Claim C7 counterexample.  With the configured threshold 0, a hole of
area 4 — strictly ABOVE the threshold, hence required by the claim to be
preserved unchanged — is removed: `close_holes` with `area_max = 0`
drops every interior ring. -/
theorem C7_zero_threshold_counterexample :
    (0:ℚ) < ringArea exHole ∧ (close_holes (.poly exPolyHole) 0).interiors = [] := by
  constructor
  · norm_num [ringArea, ringSignedArea2, exHole, List.rotate]
  · norm_num [close_holes, resolveCatchmentPoly, exPolyHole]

/-- Claim C7 (amended).  For every single-part polygon and every POSITIVE
threshold, `close_holes` keeps the exterior unchanged and keeps exactly
the interior holes whose area strictly exceeds the threshold: a hole
with area below the threshold is removed and a hole with area above the
threshold is preserved.  With threshold 0 every hole is removed
regardless of its area. -/
theorem C7_close_holes_filter (p : SPolygon) (t : ℚ) (ht : 0 < t) :
    (close_holes (.poly p) t).exterior = p.exterior ∧
    (close_holes (.poly p) t).interiors =
      p.interiors.filter (fun r => t < ringArea r) ∧
    (∀ r ∈ p.interiors, ringArea r < t → r ∉ (close_holes (.poly p) t).interiors) ∧
    (∀ r ∈ p.interiors, t < ringArea r → r ∈ (close_holes (.poly p) t).interiors) ∧
    (close_holes (.poly p) 0).interiors = [] := by
  have hne : t ≠ 0 := ne_of_gt ht
  have hch : close_holes (.poly p) t =
      ⟨p.exterior, p.interiors.filter (fun r => t < ringArea r)⟩ := by
    simp [close_holes, resolveCatchmentPoly, hne]
  refine ⟨by rw [hch], by rw [hch], ?_, ?_, ?_⟩
  · intro r hr hlt
    rw [hch]
    simp only [List.mem_filter, decide_eq_true_eq]
    rintro ⟨-, hgt⟩
    exact absurd hgt (not_lt.mpr hlt.le)
  · intro r hr hgt
    rw [hch]
    simp [List.mem_filter, hr, hgt]
  · by_cases hi : p.interiors = []
    · simp [close_holes, resolveCatchmentPoly, hi]
    · simp [close_holes, resolveCatchmentPoly, hi]

/-- Witness for C7 (amended): with threshold 2, the hole of area 4 is
preserved and the hole of area 1 is removed. -/
theorem C7_close_holes_filter_witness :
    exHole ∈ (close_holes (.poly exPolyTwoHoles) 2).interiors ∧
    exUnitHole ∉ (close_holes (.poly exPolyTwoHoles) 2).interiors :=
  ⟨(C7_close_holes_filter exPolyTwoHoles 2 (by norm_num)).2.2.2.1 exHole
      (by simp [exPolyTwoHoles])
      (by norm_num [ringArea, ringSignedArea2, exHole, List.rotate]),
   (C7_close_holes_filter exPolyTwoHoles 2 (by norm_num)).2.2.1 exUnitHole
      (by simp [exPolyTwoHoles])
      (by norm_num [ringArea, ringSignedArea2, exUnitHole, List.rotate])⟩

/-- Claim C8.  On every successful return, the returned latitude equals
the raw snapped latitude minus `halfpix` and the returned longitude
equals the raw snapped longitude plus `halfpix`, where `halfpix` is half
the code's pixel-width constant (lines 296–298 of the source apply the
nudge before either success return). -/
theorem C8_success_nudge {P : Type} (cells : List Cell) (b : Bool)
    (lat lng : ℚ) (catchment : ℚ → ℚ → Except Unit (List P)) (u : List P → P)
    (lngSnap latSnap d : ℚ) (poly : P) (la ln : ℚ)
    (hsnap : snapToMask (maskAcc cells) (numpixels b) (lng, lat) =
      some ((lngSnap, latSnap), d))
    (hrun : runDelineation cells b lat lng catchment u = .success poly la ln) :
    la = latSnap - halfpix ∧ ln = lngSnap + halfpix := by
  simp only [runDelineation, hsnap] at hrun
  split at hrun
  · cases hrun
  · split at hrun
    · rw [CallResult.success.injEq] at hrun
      exact ⟨hrun.2.1.symm, hrun.2.2.symm⟩
    · split at hrun
      · cases hrun
      · rw [CallResult.success.injEq] at hrun
        exact ⟨hrun.2.1.symm, hrun.2.2.symm⟩

/-- Witness for C8: a successful single-shape run returns the snapped
coordinates `(30, 100)` nudged to `(30 − halfpix, 100 + halfpix)`. -/
theorem C8_success_nudge_witness :
    (30:ℚ) - halfpix = 30 - halfpix ∧ (100:ℚ) + halfpix = 100 + halfpix :=
  C8_success_nudge [exCell] true 30 100 (fun _ _ => Except.ok [()])
    (fun _ => ()) 100 30 0 () (30 - halfpix) (100 + halfpix)
    (by norm_num [snapToMask, maskAcc, streamCells, nearest, cellPt, sqDist,
      numpixels, exCell])
    (by norm_num [runDelineation, snapToMask, maskAcc, streamCells, nearest,
      cellPt, sqDist, numpixels, exCell])

/-- Claim C9.  Raising the stream threshold never decreases the snapping
distance: if both thresholds leave at least one qualifying cell, the
squared distance achieved under the larger threshold is at least the one
achieved under the smaller, and hence likewise for the Euclidean
distances (their square roots). -/
theorem C9_snap_distance_monotone (cells : List Cell) (p : ℚ × ℚ)
    (T1 T2 : ℚ) (pt1 pt2 : ℚ × ℚ) (d1 d2 : ℚ) (hT : T1 ≤ T2)
    (h1 : snapToMask cells T1 p = some (pt1, d1))
    (h2 : snapToMask cells T2 p = some (pt2, d2)) :
    d1 ≤ d2 ∧ Real.sqrt (d1 : ℝ) ≤ Real.sqrt (d2 : ℝ) := by
  have hsub : ∀ c, c ∈ streamCells cells T2 → c ∈ streamCells cells T1 := by
    intro c hc
    obtain ⟨hmem, hgt⟩ := mem_streamCells.mp hc
    exact mem_streamCells.mpr ⟨hmem, lt_of_le_of_lt hT hgt⟩
  rw [snapToMask] at h1 h2
  split at h1
  · cases h1
  · next c1 cs1 heq1 =>
    split at h2
    · cases h2
    · next c2 cs2 heq2 =>
      simp only [Option.some.injEq, Prod.mk.injEq] at h1 h2
      obtain ⟨hpt1, hd1⟩ := h1
      obtain ⟨hpt2, hd2⟩ := h2
      have hmem2 : nearest p c2 cs2 ∈ streamCells cells T1 := by
        have hm : nearest p c2 cs2 ∈ c2 :: cs2 := nearest_mem_cons p c2 cs2
        rw [← heq2] at hm
        exact hsub _ hm
      rw [heq1] at hmem2
      have hle := nearest_le_all p c1 cs1 _ hmem2
      have hdd : d1 ≤ d2 := by
        rw [← hd1, ← hd2]
        exact hle
      exact ⟨hdd, Real.sqrt_le_sqrt (by exact_mod_cast hdd)⟩

/-- Witness for C9: thresholds 50 and 2000 on a two-stream-cell grid give
snap squared distances 0 and 100. -/
theorem C9_snap_distance_monotone_witness :
    (0:ℚ) ≤ 100 ∧ Real.sqrt ((0:ℚ) : ℝ) ≤ Real.sqrt ((100:ℚ) : ℝ) :=
  C9_snap_distance_monotone [exCell, exFarCell] (100, 30) 50 2000
    (100, 30) (110, 30) 0 100 (by norm_num)
    (by norm_num [snapToMask, streamCells, nearest, cellPt, sqDist, exCell,
      exFarCell])
    (by norm_num [snapToMask, streamCells, nearest, cellPt, sqDist, exCell,
      exFarCell])

/-- Claim C10.  Whenever snapping succeeds and the traversal succeeds but
polygonization yields zero shapes, the final `shapely_polygons[0]` access
is out of bounds: the call faults (aborts) instead of returning the
no-catchment outcome. -/
theorem C10_zero_shapes_fault {P : Type} (cells : List Cell) (b : Bool)
    (lat lng : ℚ) (catchment : ℚ → ℚ → Except Unit (List P)) (u : List P → P)
    (lngSnap latSnap d : ℚ)
    (hsnap : snapToMask (maskAcc cells) (numpixels b) (lng, lat) =
      some ((lngSnap, latSnap), d))
    (hcatch : catchment lngSnap latSnap = Except.ok []) :
    runDelineation cells b lat lng catchment u = .fault ∧
    (CallResult.fault : CallResult P) ≠ .noCatchment lngSnap latSnap := by
  constructor
  · simp [runDelineation, hsnap, hcatch]
  · simp

/-- Witness for C10: a run whose traversal polygonizes to zero shapes
aborts. -/
theorem C10_zero_shapes_fault_witness :
    runDelineation [exCell] true 30 100 (fun _ _ => Except.ok ([] : List Unit))
      (fun _ => ()) = .fault ∧
    (CallResult.fault : CallResult Unit) ≠ .noCatchment 100 30 :=
  C10_zero_shapes_fault [exCell] true 30 100 _ _ 100 30 0
    (by norm_num [snapToMask, maskAcc, streamCells, nearest, cellPt, sqDist,
      numpixels, exCell])
    rfl

end Delineator
